import Mathlib

/-!
# Edit Processing & Notification Pipeline — verification development

Shallow embedding of the BackendService core (`src/api/services/db.py`,
`src/api/routers/edits.py`, `src/api/routers/subscriptions.py`,
`src/api/utils/storage.py`) and proofs of the pipeline's claimed
properties.

Modelling conventions:
* Python `dict`s (insertion-ordered, assignment overwrites in place) are
  association lists with `dictGet` / `dictSet` / `dictValues`.
* `uuid.uuid4()` and `datetime.utcnow()` are external effects: uuid strings
  are explicit parameters (collision resistance becomes a freshness
  hypothesis where needed), and timestamps are ticks of a `clock` counter
  carried in the store.
* The notification registry (`routers/websocket.py`, not part of the core
  sources) is modelled from the spec: `send` delivers best-effort, a single
  channel's failure is isolated and never aborts the surrounding operation,
  so a send never raises into its caller.  The audit sink is a
  fire-and-forget log append and likewise never raises.  Consequently the
  executor's `except` branch is entered exactly for failures of the
  enhancement submission, the result fetch, or the result persistence
  (steps 1–3), which the model captures with an explicit `Outcome` input.
-/

namespace RealEstate

/-! ## Python dict as an association list -/

def dictGet {α : Type} (d : List (String × α)) (k : String) : Option α :=
  match d with
  | [] => none
  | (k', v) :: rest => if k' = k then some v else dictGet rest k

def dictSet {α : Type} (d : List (String × α)) (k : String) (v : α) :
    List (String × α) :=
  match d with
  | [] => [(k, v)]
  | (k', v') :: rest =>
      if k' = k then (k', v) :: rest else (k', v') :: dictSet rest k v

def dictValues {α : Type} (d : List (String × α)) : List α :=
  d.map Prod.snd

theorem dictGet_dictSet_self {α : Type} (d : List (String × α)) (k : String)
    (v : α) : dictGet (dictSet d k v) k = some v := by
  induction d with
  | nil => simp [dictGet, dictSet]
  | cons hd tl ih =>
      obtain ⟨k', v'⟩ := hd
      by_cases h : k' = k
      · simp [dictGet, dictSet, h]
      · simp [dictGet, dictSet, h, ih]

theorem dictGet_dictSet_ne {α : Type} (d : List (String × α)) (k k' : String)
    (v : α) (h : k ≠ k') : dictGet (dictSet d k v) k' = dictGet d k' := by
  induction d with
  | nil => simp [dictGet, dictSet, h]
  | cons hd tl ih =>
      obtain ⟨k0, v0⟩ := hd
      by_cases h0 : k0 = k
      · subst h0
        simp [dictGet, dictSet, h]
      · simp [dictGet, dictSet, h0, ih]

theorem dictValues_dictSet_fresh {α : Type} (d : List (String × α))
    (k : String) (v : α) (h : dictGet d k = none) :
    dictValues (dictSet d k v) = dictValues d ++ [v] := by
  induction d with
  | nil => simp [dictValues, dictSet]
  | cons hd tl ih =>
      obtain ⟨k0, v0⟩ := hd
      by_cases h0 : k0 = k
      · simp [dictGet, h0] at h
      · simp [dictGet, h0] at h
        simp [dictValues, dictSet, h0] at ih ⊢
        exact ih h

/-! ## Data model (`services/db.py`) -/

/-- An image record as built by `InMemoryDB.create_image`. -/
structure ImageRec where
  id : String
  user_id : String
  filename : String
  path : String
  mime : String
  created_at : Nat
  status : String
deriving Repr, DecidableEq

/-- An edit record as built by `InMemoryDB.create_edit`. -/
structure EditRec where
  id : String
  user_id : String
  image_id : String
  prompt : String
  status : String
  result_path : Option String
  created_at : Nat
  updated_at : Nat
deriving Repr, DecidableEq

/-- A subscription record as built by `InMemoryDB.set_subscription`; the
webhook's `customer.subscription.deleted` branch stores `plan=None`, hence
the optional plan. -/
structure SubRec where
  user_id : String
  plan : Option String
  status : String
deriving Repr, DecidableEq

/-- The in-memory store (`InMemoryDB`).  The `users` table of the source is
never read or written by any operation modelled here and is omitted; `clock`
models `datetime.utcnow()` ticks. -/
structure DB where
  images : List (String × ImageRec)
  edits : List (String × EditRec)
  subscriptions : List (String × SubRec)
  usage : List (String × List (String × Int))
  clock : Nat
deriving Repr, DecidableEq

/-- `InMemoryDB.create_image` (uuid supplied externally). -/
def DB.create_image (db : DB) (img_id user_id filename path mime : String) :
    ImageRec × DB :=
  let r : ImageRec :=
    ⟨img_id, user_id, filename, path, mime, db.clock, "uploaded"⟩
  (r, { db with images := dictSet db.images img_id r, clock := db.clock + 1 })

/-- `InMemoryDB.get_image`. -/
def DB.get_image (db : DB) (user_id image_id : String) : Option ImageRec :=
  match dictGet db.images image_id with
  | some img => if img.user_id = user_id then some img else none
  | none => none

/-- `InMemoryDB.create_edit` (uuid supplied externally). -/
def DB.create_edit (db : DB) (edit_id user_id image_id prompt : String) :
    EditRec × DB :=
  let r : EditRec :=
    ⟨edit_id, user_id, image_id, prompt, "queued", none, db.clock, db.clock⟩
  (r, { db with edits := dictSet db.edits edit_id r, clock := db.clock + 1 })

/-- `InMemoryDB.get_edit`. -/
def DB.get_edit (db : DB) (user_id edit_id : String) : Option EditRec :=
  match dictGet db.edits edit_id with
  | some ed => if ed.user_id = user_id then some ed else none
  | none => none

/-- The `**fields` keyword arguments passed to `InMemoryDB.update_edit`;
only `status` and `result_path` occur at its call sites. -/
structure EditFields where
  status : Option String
  result_path : Option (Option String)
deriving Repr, DecidableEq

/-- `InMemoryDB.update_edit`: merge fields, refresh `updated_at`. -/
def DB.update_edit (db : DB) (edit_id : String) (fields : EditFields) :
    Option EditRec × DB :=
  match dictGet db.edits edit_id with
  | none => (none, db)
  | some ed =>
      let ed' : EditRec :=
        { ed with
            status := fields.status.getD ed.status
            result_path := fields.result_path.getD ed.result_path
            updated_at := db.clock }
      (some ed',
        { db with edits := dictSet db.edits edit_id ed', clock := db.clock + 1 })

/-- `InMemoryDB.list_edits_for_image`. -/
def DB.list_edits_for_image (db : DB) (user_id image_id : String) :
    List EditRec :=
  (dictValues db.edits).filter
    (fun e => e.user_id = user_id && e.image_id = image_id)

/-- `InMemoryDB.set_subscription`. -/
def DB.set_subscription (db : DB) (user_id : String) (plan : Option String)
    (status : String) : SubRec × DB :=
  let r : SubRec := ⟨user_id, plan, status⟩
  (r, { db with subscriptions := dictSet db.subscriptions user_id r })

/-- `InMemoryDB.get_subscription`. -/
def DB.get_subscription (db : DB) (user_id : String) : Option SubRec :=
  dictGet db.subscriptions user_id

/-- `InMemoryDB.increment_usage` (the Python default for `amount` is 1; call
sites in the core pass the default). -/
def DB.increment_usage (db : DB) (user_id metric : String) (amount : Int) :
    Int × DB :=
  let userMap := (dictGet db.usage user_id).getD []
  let newVal := ((dictGet userMap metric).getD 0) + amount
  (newVal,
    { db with usage := dictSet db.usage user_id (dictSet userMap metric newVal) })

/-- `InMemoryDB.get_usage`. -/
def DB.get_usage (db : DB) (user_id : String) : List (String × Int) :=
  (dictGet db.usage user_id).getD []

/-! ## Storage utilities (`utils/storage.py`) -/

/-- A character kept unchanged by `SAFE_CHARS_RE` (`[^A-Za-z0-9._-]` is
substituted by an underscore). -/
def isSafeChar (c : Char) : Bool :=
  c.isAlpha || c.isDigit || c = '.' || c = '_' || c = '-'

/-- `os.path.basename` for POSIX paths: everything after the last slash. -/
def basename (s : String) : String :=
  ⟨(s.data.reverse.takeWhile (fun c => c ≠ '/')).reverse⟩

/-- `safe_filename`: basename, substitute unsafe characters, truncate to
100 characters. -/
def safe_filename (original : String) : String :=
  ⟨((basename original).data.map
      (fun c => if isSafeChar c then c else '_')).take 100⟩

/-- `os.path.join` for two POSIX components (`b.startswith("/")` and
`a.endswith("/")` are spelled as first/last-character tests to keep the
definition kernel-reducible). -/
def pathJoin (a b : String) : String :=
  if b.data.head? = some '/' then b
  else if a = "" || a.data.getLast? = some '/' then a ++ b
  else a ++ "/" ++ b

/-- `settings.RESULTS_DIR` default from `settings.py`. -/
def RESULTS_DIR : String := "storage/results"

/-- `generate_result_path` (uuid supplied externally): returns
`(abs_path, rel_path)`, with `abs_path = rel_path` in the source. -/
def generate_result_path (uuidStr : String) (basename_hint : String) :
    String × String :=
  let safe := safe_filename basename_hint
  let unique := uuidStr ++ "_" ++ safe
  let rel := pathJoin RESULTS_DIR unique
  (rel, rel)

/-! ## Notifications, audit events, action traces -/

/-- Payload of an `edit_status` notification (`routers/edits.py`): the
completed variant carries `result_path`, the failed variant `error`. -/
structure EditStatusPayload where
  edit_id : String
  status : String
  result_path : Option String
  error : Option String
deriving Repr, DecidableEq

/-- Payload of a `usage_alert` notification. -/
structure UsageAlertPayload where
  message : String
  remaining : Int
deriving Repr, DecidableEq

/-- A notification handed to `send_notification(user_id, event_type,
payload)`.  Modelled from the spec: the registry delivers best-effort to the
user's channels and a delivery failure never aborts the sender. -/
inductive Notice where
  | edit_status (user_id : String) (p : EditStatusPayload)
  | usage_alert (user_id : String) (p : UsageAlertPayload)
  | subscription_update (user_id : String) (status : String)
      (plan : Option String)
deriving Repr, DecidableEq

/-- A structured audit event (`utils/audit.py`): action, user, details. -/
structure AuditEvent where
  action : String
  user_id : String
  details : List (String × String)
deriving Repr, DecidableEq

/-- One observable primitive action of the executor, in program order. -/
inductive Action where
  | storeUpdateEdit (edit_id : String) (fields : EditFields)
  | storeIncrementUsage (user_id metric : String)
  | notify (n : Notice)
  | auditPost (e : AuditEvent)
deriving Repr, DecidableEq

/-- All notifications of a trace, in order. -/
def traceNotes (tr : List Action) : List Notice :=
  tr.filterMap (fun a => match a with
    | Action.notify n => some n
    | _ => none)

/-- All `usage_alert` notifications of a trace, in order. -/
def traceUsageAlerts (tr : List Action) : List Notice :=
  (traceNotes tr).filter (fun n => match n with
    | Notice.usage_alert _ _ => true
    | _ => false)

/-- All audit events of a trace, in order. -/
def traceAudits (tr : List Action) : List AuditEvent :=
  tr.filterMap (fun a => match a with
    | Action.auditPost e => some e
    | _ => none)

/-- All store writes to edit records of a trace, in order. -/
def traceEditUpdates (tr : List Action) : List (String × EditFields) :=
  tr.filterMap (fun a => match a with
    | Action.storeUpdateEdit eid f => some (eid, f)
    | _ => none)

/-! ## Edit Job Executor (`process_edit` in `routers/edits.py`) -/

/-- Outcome of the external effects of steps 1–3 (enhancement submission,
result fetch, result-file persistence).  `failure` models any exception
raised there; per the spec the registry send and the audit append never
raise, so no later statement of the `try` block can enter the `except`
branch. -/
inductive Outcome where
  | success
  | failure (err : String)
deriving Repr, DecidableEq

/-- Result of one executor run: the store afterwards and the ordered trace
of its observable actions.  `process_edit` always returns normally — the
model is a total function, mirroring that the `except` branch swallows the
exception and nothing propagates to the Controller's caller. -/
structure ProcResult where
  db : DB
  trace : List Action
deriving Repr, DecidableEq

/-- The `usage_alert` message literal of `process_edit`. -/
def usageAlertMessage : String :=
  "You have only 2 trial edits remaining. Subscribe to continue using the service."

/-- `process_edit(user_id, edit_id, image_path, prompt)`: the background
task.  `resultUuid` is the uuid drawn by `generate_result_path`; the
`image_path`/`prompt` arguments only feed the external call and do not
influence the store, so they are absorbed into `Outcome`. -/
def process_edit (db : DB) (user_id edit_id : String) (resultUuid : String)
    (outcome : Outcome) : ProcResult :=
  match outcome with
  | Outcome.success =>
      let rel := (generate_result_path resultUuid "enhanced.jpg").2
      let complFields : EditFields := ⟨some "completed", some (some rel)⟩
      let db1 := (db.update_edit edit_id complFields).2
      let note1 := Notice.edit_status user_id ⟨edit_id, "completed", some rel, none⟩
      let iu := db1.increment_usage user_id "edits_completed" 1
      let usage := iu.1
      let db2 := iu.2
      let sub := db2.get_subscription user_id
      let alertActs : List Action :=
        if sub.isNone && decide (8 ≤ usage) then
          [Action.notify (Notice.usage_alert user_id
            ⟨usageAlertMessage, 10 - usage⟩)]
        else []
      let auditEvt : AuditEvent :=
        ⟨"edit_completed", user_id, [("edit_id", edit_id), ("image_path", rel)]⟩
      ⟨db2,
        [Action.storeUpdateEdit edit_id complFields, Action.notify note1,
         Action.storeIncrementUsage user_id "edits_completed"]
          ++ alertActs ++ [Action.auditPost auditEvt]⟩
  | Outcome.failure err =>
      let failFields : EditFields := ⟨some "failed", none⟩
      let db1 := (db.update_edit edit_id failFields).2
      let note1 := Notice.edit_status user_id ⟨edit_id, "failed", none, some err⟩
      let auditEvt : AuditEvent :=
        ⟨"edit_failed", user_id, [("edit_id", edit_id), ("error", err)]⟩
      ⟨db1,
        [Action.storeUpdateEdit edit_id failFields, Action.notify note1,
         Action.auditPost auditEvt]⟩

/-! ## Edit Lifecycle Controller (`routers/edits.py`) -/

/-- A client error raised by a route (`HTTPException`); the core raises only
404 Not Found. -/
inductive ApiError where
  | notFound (detail : String)
deriving Repr, DecidableEq

/-- A scheduled background run of `process_edit`, as enqueued through
`background_tasks.add_task(process_edit, user_id, edit_record["id"],
image["path"], edit.prompt)`. -/
structure Task where
  user_id : String
  edit_id : String
  image_path : String
  prompt : String
deriving Repr, DecidableEq

/-- The `POST /edits/{image_id}` route, `create_edit`: ownership check, edit
creation, executor scheduling (returned as a `Task`, not run), audit event.
Returns the store alongside the result, unchanged when the ownership check
raises. -/
def create_edit_route (db : DB) (user_id image_id prompt editUuid : String) :
    Except ApiError (EditRec × Task × AuditEvent) × DB :=
  match db.get_image user_id image_id with
  | none => (Except.error (ApiError.notFound "Image not found"), db)
  | some image =>
      let cr := db.create_edit editUuid user_id image_id prompt
      let record := cr.1
      let db1 := cr.2
      let task : Task := ⟨user_id, record.id, image.path, prompt⟩
      let auditEvt : AuditEvent :=
        ⟨"edit_requested", user_id,
          [("edit_id", record.id), ("image_id", image_id), ("prompt", prompt)]⟩
      (Except.ok (record, task, auditEvt), db1)

/-- The `GET /edits/{image_id}/list` route, `list_edits`: same ownership
check, then the store enumeration.  Reads only. -/
def list_edits_route (db : DB) (user_id image_id : String) :
    Except ApiError (List EditRec) :=
  match db.get_image user_id image_id with
  | none => Except.error (ApiError.notFound "Image not found")
  | some _ => Except.ok (db.list_edits_for_image user_id image_id)

/-! ## Subscription status (`routers/subscriptions.py`) -/

/-- Response model of `GET /subscriptions/status`. -/
structure SubscriptionStatus where
  plan : Option String
  status : String
  trial_remaining : Option Int
deriving Repr, DecidableEq

/-- `get_subscription_status`: a user without a subscription record is on
trial with `max(0, 10 - edits_used)` remaining. -/
def get_subscription_status (db : DB) (user_id : String) :
    SubscriptionStatus :=
  let sub := db.get_subscription user_id
  let usage := db.get_usage user_id
  let edits_used := (dictGet usage "edits_completed").getD 0
  match sub with
  | none => ⟨none, "trial", some (max 0 (10 - edits_used))⟩
  | some s => ⟨s.plan, s.status, none⟩

/-- Modelled from the spec: the spec's phrase "the user has no active
subscription" (§4.2), read as: no subscription record with status
`"active"` exists for the user.  Used to compare the spec's alert condition
with the source's (`if not sub`), which tests mere record presence. -/
def hasActiveSubscription (db : DB) (user_id : String) : Bool :=
  match db.get_subscription user_id with
  | some s => s.status = "active"
  | none => false

/-! ## System behaviours

A system state is the store plus the multiset of scheduled-but-not-yet-run
executor tasks.  Steps are the operations the components perform on the
store: an image upload (external flow calling `create_image`), a Controller
`submit`, an Executor run of a scheduled task with an arbitrary external
outcome, and the billing webhook's `set_subscription`.  Uuids are drawn
fresh (uuid4 collision resistance). -/

structure Sys where
  db : DB
  pending : List Task
deriving Repr, DecidableEq

inductive SysStep : Sys → Sys → Prop where
  | upload (s : Sys) (img_id user_id filename path mime : String)
      (hFresh : dictGet s.db.images img_id = none) :
      SysStep s
        ⟨(s.db.create_image img_id user_id filename path mime).2, s.pending⟩
  | submit (s : Sys) (user_id image_id prompt editUuid : String)
      (e : EditRec) (t : Task) (a : AuditEvent) (db1 : DB)
      (hFresh : dictGet s.db.edits editUuid = none)
      (hRoute : create_edit_route s.db user_id image_id prompt editUuid
        = (Except.ok (e, t, a), db1)) :
      SysStep s ⟨db1, t :: s.pending⟩
  | runTask (s : Sys) (t : Task) (resultUuid : String) (outcome : Outcome)
      (hMem : t ∈ s.pending) :
      SysStep s
        ⟨(process_edit s.db t.user_id t.edit_id resultUuid outcome).db,
          s.pending.erase t⟩
  | webhook (s : Sys) (user_id : String) (plan : Option String)
      (status : String) :
      SysStep s ⟨(s.db.set_subscription user_id plan status).2, s.pending⟩

/-- The empty initial system: fresh store, nothing scheduled. -/
def initSys : Sys := ⟨⟨[], [], [], [], 0⟩, []⟩

/-- States reachable by Controller, Executor, upload and webhook
operations. -/
def Reachable (s : Sys) : Prop :=
  Relation.ReflTransGen SysStep initSys s

/-- The pipeline invariant: every scheduled task points at an existing
`queued` edit with no result yet, scheduled tasks target pairwise distinct
edits, and every edit record has a result exactly when completed. -/
def Inv (s : Sys) : Prop :=
  (∀ t ∈ s.pending, ∃ e, dictGet s.db.edits t.edit_id = some e ∧
      e.status = "queued" ∧ e.result_path = none) ∧
  (s.pending.map Task.edit_id).Nodup ∧
  (∀ eid e, dictGet s.db.edits eid = some e →
      (e.result_path ≠ none ↔ e.status = "completed"))

theorem inv_init : Inv initSys := by
  refine ⟨?_, ?_, ?_⟩
  · intro t ht
    simp [initSys] at ht
  · simp [initSys]
  · intro eid e h
    simp [initSys, dictGet] at h

/-- Effect of one executor run on edit records other than its own: none. -/
theorem process_edit_edits_other (db : DB) (u eid uuidR : String)
    (oc : Outcome) (eid' : String) (hne : eid' ≠ eid) :
    dictGet (process_edit db u eid uuidR oc).db.edits eid'
      = dictGet db.edits eid' := by
  cases oc with
  | success =>
      simp only [process_edit, DB.update_edit, DB.increment_usage]
      cases h : dictGet db.edits eid with
      | none => simp
      | some ed => simp [dictGet_dictSet_ne _ _ _ _ (fun hh => hne hh.symm)]
  | failure err =>
      simp only [process_edit, DB.update_edit]
      cases h : dictGet db.edits eid with
      | none => simp
      | some ed => simp [dictGet_dictSet_ne _ _ _ _ (fun hh => hne hh.symm)]

/-- Effect of one executor run on its own edit record, when present. -/
theorem process_edit_edits_self (db : DB) (u eid uuidR : String)
    (oc : Outcome) (e : EditRec) (he : dictGet db.edits eid = some e) :
    dictGet (process_edit db u eid uuidR oc).db.edits eid
      = some (match oc with
        | Outcome.success =>
            { e with status := "completed"
                     result_path :=
                       some (generate_result_path uuidR "enhanced.jpg").2
                     updated_at := db.clock }
        | Outcome.failure _ =>
            { e with status := "failed", updated_at := db.clock }) := by
  cases oc with
  | success =>
      simp only [process_edit, DB.update_edit, DB.increment_usage, he]
      simp [dictGet_dictSet_self]
  | failure err =>
      simp only [process_edit, DB.update_edit, he]
      simp [dictGet_dictSet_self]

/-- One executor run leaves the subscriptions table untouched. -/
theorem process_edit_subscriptions (db : DB) (u eid uuidR : String)
    (oc : Outcome) :
    (process_edit db u eid uuidR oc).db.subscriptions = db.subscriptions := by
  cases oc with
  | success =>
      simp only [process_edit, DB.update_edit, DB.increment_usage]
      cases h : dictGet db.edits eid <;> simp
  | failure err =>
      simp only [process_edit, DB.update_edit]
      cases h : dictGet db.edits eid <;> simp

/-- A successful submit returns the freshly created queued record and stores
exactly it under the drawn uuid. -/
theorem create_edit_route_ok_shape (db : DB) (u i p uuid : String)
    (e : EditRec) (t : Task) (a : AuditEvent) (db1 : DB)
    (h : create_edit_route db u i p uuid = (Except.ok (e, t, a), db1)) :
    e = ⟨uuid, u, i, p, "queued", none, db.clock, db.clock⟩ ∧
    t.edit_id = uuid ∧
    db1.edits = dictSet db.edits uuid
      ⟨uuid, u, i, p, "queued", none, db.clock, db.clock⟩ := by
  unfold create_edit_route at h
  cases hg : db.get_image u i with
  | none => rw [hg] at h; simp at h
  | some img =>
      rw [hg] at h
      simp only [DB.create_edit, Prod.mk.injEq, Except.ok.injEq] at h
      obtain ⟨⟨he, ht, _⟩, hdb⟩ := h
      subst he
      subst hdb
      exact ⟨rfl, by rw [← ht], rfl⟩

theorem inv_step (s s' : Sys) (hInv : Inv s) (hstep : SysStep s s') :
    Inv s' := by
  obtain ⟨hPend, hNodup, hEdits⟩ := hInv
  cases hstep with
  | upload img_id user_id filename path mime hFresh =>
      exact ⟨fun t ht => hPend t ht, hNodup, fun eid e h => hEdits eid e h⟩
  | submit user_id image_id prompt editUuid e t a db1 hFresh hRoute =>
      obtain ⟨he, htid, hdb1⟩ :=
        create_edit_route_ok_shape _ _ _ _ _ _ _ _ _ hRoute
      have hne : ∀ t' ∈ s.pending, t'.edit_id ≠ editUuid := by
        intro t' ht' hcontra
        obtain ⟨e', he', _, _⟩ := hPend t' ht'
        rw [hcontra, hFresh] at he'
        exact Option.noConfusion he'
      refine ⟨?_, ?_, ?_⟩
      · intro t' ht'
        rcases List.mem_cons.mp ht' with h1 | h1
        · subst h1
          refine ⟨⟨editUuid, user_id, image_id, prompt, "queued", none,
              s.db.clock, s.db.clock⟩, ?_, rfl, rfl⟩
          show dictGet db1.edits t'.edit_id = _
          rw [hdb1, htid, dictGet_dictSet_self]
        · obtain ⟨e', he', hq, hr⟩ := hPend t' h1
          refine ⟨e', ?_, hq, hr⟩
          show dictGet db1.edits t'.edit_id = _
          rw [hdb1, dictGet_dictSet_ne _ _ _ _
            (fun hh => hne t' h1 hh.symm), he']
      · simp only [List.map_cons, List.nodup_cons]
        constructor
        · intro hmem
          obtain ⟨t', ht', htid'⟩ := List.mem_map.mp hmem
          rw [htid] at htid'
          exact hne t' ht' htid'
        · exact hNodup
      · intro eid e' h'
        by_cases heq : eid = editUuid
        · subst heq
          rw [show (⟨db1, t :: s.pending⟩ : Sys).db = db1 from rfl] at h'
          rw [hdb1, dictGet_dictSet_self] at h'
          obtain rfl := Option.some.injEq _ _ ▸ h'.symm
          simp
        · rw [show (⟨db1, t :: s.pending⟩ : Sys).db = db1 from rfl] at h'
          rw [hdb1, dictGet_dictSet_ne _ _ _ _
            (fun hh => heq hh.symm)] at h'
          exact hEdits eid e' h'
  | runTask t resultUuid outcome hMem =>
      obtain ⟨e0, he0, hq0, hr0⟩ := hPend t hMem
      have hPendNodup : s.pending.Nodup := hNodup.of_map
      refine ⟨?_, ?_, ?_⟩
      · intro t' ht'
        have ht'mem : t' ∈ s.pending := List.mem_of_mem_erase ht'
        have ht'ne : t' ≠ t := ((hPendNodup.mem_erase_iff).mp ht').1
        have hidne : t'.edit_id ≠ t.edit_id := by
          intro hcontra
          exact ht'ne (List.inj_on_of_nodup_map hNodup ht'mem hMem hcontra)
        obtain ⟨e', he', hq, hr⟩ := hPend t' ht'mem
        refine ⟨e', ?_, hq, hr⟩
        show dictGet (process_edit s.db t.user_id t.edit_id resultUuid
          outcome).db.edits t'.edit_id = _
        rw [process_edit_edits_other _ _ _ _ _ _ hidne, he']
      · exact hNodup.sublist ((s.pending.erase_sublist t).map Task.edit_id)
      · intro eid e' h'
        by_cases heq : eid = t.edit_id
        · subst heq
          rw [show (⟨(process_edit s.db t.user_id t.edit_id resultUuid
              outcome).db, s.pending.erase t⟩ : Sys).db
              = (process_edit s.db t.user_id t.edit_id resultUuid outcome).db
              from rfl] at h'
          rw [process_edit_edits_self _ _ _ _ _ _ he0] at h'
          cases outcome with
          | success =>
              obtain rfl := Option.some.injEq _ _ ▸ h'.symm
              simp
          | failure err =>
              obtain rfl := Option.some.injEq _ _ ▸ h'.symm
              simp [hr0]
        · rw [show (⟨(process_edit s.db t.user_id t.edit_id resultUuid
              outcome).db, s.pending.erase t⟩ : Sys).db
              = (process_edit s.db t.user_id t.edit_id resultUuid outcome).db
              from rfl] at h'
          rw [process_edit_edits_other _ _ _ _ _ _ heq] at h'
          exact hEdits eid e' h'
  | webhook user_id plan status =>
      exact ⟨fun t ht => hPend t ht, hNodup, fun eid e h => hEdits eid e h⟩

/-- Every reachable system state satisfies the pipeline invariant. -/
theorem reachable_inv (s : Sys) (hs : Reachable s) : Inv s := by
  induction hs with
  | refl => exact inv_init
  | tail hab hbc ih => exact inv_step _ _ ih hbc

/-- A step never touches an edit record that is already terminal: the
record (status included) is preserved verbatim. -/
theorem step_preserves_terminal (s s' : Sys) (hInv : Inv s)
    (hstep : SysStep s s') (eid : String) (e : EditRec)
    (he : dictGet s.db.edits eid = some e)
    (hterm : e.status = "completed" ∨ e.status = "failed") :
    dictGet s'.db.edits eid = some e := by
  cases hstep with
  | upload img_id user_id filename path mime hFresh => exact he
  | submit user_id image_id prompt editUuid e' t a db1 hFresh hRoute =>
      obtain ⟨_, _, hdb1⟩ :=
        create_edit_route_ok_shape _ _ _ _ _ _ _ _ _ hRoute
      show dictGet db1.edits eid = some e
      rw [hdb1, dictGet_dictSet_ne]
      · exact he
      · intro hcontra
        rw [hcontra, he] at hFresh
        exact Option.noConfusion hFresh
  | runTask t resultUuid outcome hMem =>
      obtain ⟨e0, he0, hq0, _⟩ := hInv.1 t hMem
      show dictGet (process_edit s.db t.user_id t.edit_id resultUuid
        outcome).db.edits eid = some e
      rw [process_edit_edits_other]
      · exact he
      · intro hcontra
        rw [← hcontra, he] at he0
        injection he0 with h2
        subst h2
        rcases hterm with h | h <;> rw [hq0] at h <;> exact absurd h (by decide)
  | webhook user_id plan status => exact he

/-- **C1**: the Edit status state machine is one-directional with terminal
states.  For every reachable state and every further sequence of operations
performed by the Controller, the Executor, the upload flow or the billing
webhook, an edit whose status is `completed` or `failed` keeps its record —
in particular its status — unchanged; a `completed` edit is never later set
to `failed`. -/
theorem terminal_status_never_changes (s s' : Sys) (hs : Reachable s)
    (hss' : Relation.ReflTransGen SysStep s s') (eid : String) (e : EditRec)
    (he : dictGet s.db.edits eid = some e)
    (hterm : e.status = "completed" ∨ e.status = "failed") :
    dictGet s'.db.edits eid = some e := by
  induction hss' with
  | refl => exact he
  | tail hab hbc ih =>
      exact step_preserves_terminal _ _ (reachable_inv _ (hs.trans hab)) hbc
        eid e ih hterm

/-- **C2**: in every reachable state, every edit record's `result_path` is
non-null if and only if its status is `completed`. -/
theorem result_path_iff_completed (s : Sys) (hs : Reachable s) (eid : String)
    (e : EditRec) (he : dictGet s.db.edits eid = some e) :
    (e.result_path ≠ none ↔ e.status = "completed") :=
  (reachable_inv s hs).2.2 eid e he

/-! Concrete system run: upload an image, submit an edit, run the executor
successfully.  Used to witness the reachability hypotheses. -/

def wImage : ImageRec :=
  ⟨"img1", "u1", "house.jpg", "uploads/house.jpg", "image/jpeg", 0, "uploaded"⟩

def wEditQueued : EditRec :=
  ⟨"e1", "u1", "img1", "brighten", "queued", none, 1, 1⟩

def wTask : Task := ⟨"u1", "e1", "uploads/house.jpg", "brighten"⟩

def wAudit : AuditEvent :=
  ⟨"edit_requested", "u1",
    [("edit_id", "e1"), ("image_id", "img1"), ("prompt", "brighten")]⟩

def wDb1 : DB := ⟨[("img1", wImage)], [("e1", wEditQueued)], [], [], 2⟩

def wEditDone : EditRec :=
  ⟨"e1", "u1", "img1", "brighten", "completed",
    some "storage/results/r1_enhanced.jpg", 1, 2⟩

def wSysDone : Sys :=
  ⟨⟨[("img1", wImage)], [("e1", wEditDone)], [],
    [("u1", [("edits_completed", 1)])], 3⟩, []⟩

def wSysAfter : Sys :=
  ⟨⟨[("img1", wImage)], [("e1", wEditDone)],
    [("u2", ⟨"u2", some "basic", "active"⟩)],
    [("u1", [("edits_completed", 1)])], 3⟩, []⟩

theorem wSysDone_reachable : Reachable wSysDone :=
  Relation.ReflTransGen.tail
    (Relation.ReflTransGen.tail
      (Relation.ReflTransGen.tail Relation.ReflTransGen.refl
        (SysStep.upload initSys "img1" "u1" "house.jpg" "uploads/house.jpg"
          "image/jpeg" rfl))
      (SysStep.submit _ "u1" "img1" "brighten" "e1" wEditQueued wTask wAudit
        wDb1 rfl rfl))
    (SysStep.runTask _ wTask "r1" Outcome.success (List.mem_cons_self _ _))

theorem terminal_status_never_changes_witness :
    dictGet wSysAfter.db.edits "e1" = some wEditDone :=
  terminal_status_never_changes wSysDone wSysAfter wSysDone_reachable
    (Relation.ReflTransGen.tail Relation.ReflTransGen.refl
      (SysStep.webhook wSysDone "u2" (some "basic") "active"))
    "e1" wEditDone rfl (Or.inl rfl)

theorem result_path_iff_completed_witness :
    (wEditDone.result_path ≠ none ↔ wEditDone.status = "completed") :=
  result_path_iff_completed wSysDone wSysDone_reachable "e1" wEditDone rfl

/-- **C5**: on the failure path (any exception from enhancement submission,
result fetch or result persistence) the Executor marks the Edit `failed`,
sends exactly one `edit_status` notification carrying the error description,
emits exactly one `edit_failed` audit record, performs exactly one store
write (no retry), and touches no usage counter.  `process_edit` is a total
function returning `ProcResult`, so nothing propagates to the Controller's
caller. -/
theorem failure_path_terminal_single_shot (db : DB) (u eid uuidR err : String)
    (e : EditRec) (he : dictGet db.edits eid = some e) :
    dictGet (process_edit db u eid uuidR (Outcome.failure err)).db.edits eid
        = some { e with status := "failed", updated_at := db.clock } ∧
    traceNotes (process_edit db u eid uuidR (Outcome.failure err)).trace
        = [Notice.edit_status u ⟨eid, "failed", none, some err⟩] ∧
    traceAudits (process_edit db u eid uuidR (Outcome.failure err)).trace
        = [⟨"edit_failed", u, [("edit_id", eid), ("error", err)]⟩] ∧
    traceEditUpdates (process_edit db u eid uuidR (Outcome.failure err)).trace
        = [(eid, ⟨some "failed", none⟩)] ∧
    (process_edit db u eid uuidR (Outcome.failure err)).db.usage = db.usage := by
  refine ⟨process_edit_edits_self db u eid uuidR (Outcome.failure err) e he,
    rfl, rfl, rfl, ?_⟩
  simp [process_edit, DB.update_edit, he]

theorem failure_path_terminal_single_shot_witness :
    dictGet (process_edit wDb1 "u1" "e1" "r9"
        (Outcome.failure "boom")).db.edits "e1"
      = some ⟨"e1", "u1", "img1", "brighten", "failed", none, 1, 2⟩ :=
  (failure_path_terminal_single_shot wDb1 "u1" "e1" "r9" "boom" wEditQueued
    rfl).1

/-- **C8**: in every executor run, the store write that changes the Edit's
state is the first action of the trace and the matching `edit_status`
notification is the second, so the write precedes the notification and the
notification describes exactly the state written (same status; the result
reference exactly when completed). -/
theorem store_write_precedes_notification (db : DB) (u eid uuidR : String)
    (oc : Outcome) :
    ∃ f p, (process_edit db u eid uuidR oc).trace.get? 0
        = some (Action.storeUpdateEdit eid f) ∧
      (process_edit db u eid uuidR oc).trace.get? 1
        = some (Action.notify (Notice.edit_status u p)) ∧
      f.status = some p.status ∧ p.edit_id = eid ∧
      f.result_path = Option.map some p.result_path := by
  cases oc with
  | success => exact ⟨_, _, rfl, rfl, rfl, rfl, rfl⟩
  | failure err => exact ⟨_, _, rfl, rfl, rfl, rfl, rfl⟩

/-- The `edits_completed` count `get_usage` reports for a user (the
`usage.get("edits_completed", 0)` read of `get_subscription_status`). -/
def editsUsed (db : DB) (u : String) : Int :=
  (dictGet (db.get_usage u) "edits_completed").getD 0

theorem update_edit_usage (db : DB) (eid : String) (f : EditFields) :
    (db.update_edit eid f).2.usage = db.usage := by
  unfold DB.update_edit
  cases dictGet db.edits eid <;> simp

theorem update_edit_subscriptions (db : DB) (eid : String) (f : EditFields) :
    (db.update_edit eid f).2.subscriptions = db.subscriptions := by
  unfold DB.update_edit
  cases dictGet db.edits eid <;> simp

/-- The usage total the success path computes after its store update. -/
theorem post_update_increment_value (db : DB) (eid : String) (f : EditFields)
    (u m : String) (a : Int) :
    ((db.update_edit eid f).2.increment_usage u m a).1
      = (dictGet ((dictGet db.usage u).getD []) m).getD 0 + a := by
  unfold DB.increment_usage
  rw [update_edit_usage]

/-- The subscription lookup the success path performs after its store
update and usage increment sees the original subscriptions table. -/
theorem post_update_increment_subscription (db : DB) (eid : String)
    (f : EditFields) (u m : String) (a : Int) (u' : String) :
    ((db.update_edit eid f).2.increment_usage u m a).2.get_subscription u'
      = db.get_subscription u' := by
  unfold DB.get_subscription DB.increment_usage
  simp [update_edit_subscriptions]

/-- Characterisation of the `usage_alert` actions of a successful run: the
source guards on `not sub and usage >= 8`, i.e. on the absence of any
subscription record, and carries `remaining = 10 - usage` unclamped. -/
theorem process_success_alert_actions (db : DB) (u eid uuidR : String) :
    traceUsageAlerts (process_edit db u eid uuidR Outcome.success).trace
      = (if db.get_subscription u = none ∧ 8 ≤ editsUsed db u + 1 then
          [Notice.usage_alert u ⟨usageAlertMessage, 10 - (editsUsed db u + 1)⟩]
        else []) := by
  simp only [process_edit]
  rw [post_update_increment_value, post_update_increment_subscription]
  simp only [editsUsed, DB.get_usage]
  cases hsub : db.get_subscription u with
  | some s => simp [traceUsageAlerts, traceNotes]
  | none =>
      by_cases h8 : (8 : Int) ≤
          (dictGet ((dictGet db.usage u).getD []) "edits_completed").getD 0 + 1
      · simp [traceUsageAlerts, traceNotes, h8]
      · simp [traceUsageAlerts, traceNotes, h8]

/-- Store of a user whose subscription was cancelled by the webhook's
`customer.subscription.deleted` branch (`set_subscription(plan=None,
status="cancelled")`) and who has completed 7 edits. -/
def cDbCancelled : DB :=
  ⟨[("img1", wImage)], [("e1", wEditQueued)],
    [("u1", ⟨"u1", none, "cancelled"⟩)],
    [("u1", [("edits_completed", 7)])], 2⟩

/-- **C3** counterexample: a user with a cancelled subscription record has
no *active* subscription, and their 8th successful completion should
therefore alert per the claim; but the source guards on `not sub` — mere
record presence — so no `usage_alert` is emitted even though the edit
completes and the updated count is 8. -/
theorem usage_alert_missing_for_cancelled_subscription :
    hasActiveSubscription cDbCancelled "u1" = false ∧
    (dictGet ((process_edit cDbCancelled "u1" "e1" "r1"
        Outcome.success).db.get_usage "u1") "edits_completed").getD 0 = 8 ∧
    dictGet (process_edit cDbCancelled "u1" "e1" "r1"
        Outcome.success).db.edits "e1"
      = some ⟨"e1", "u1", "img1", "brighten", "completed",
          some "storage/results/r1_enhanced.jpg", 1, 2⟩ ∧
    traceUsageAlerts (process_edit cDbCancelled "u1" "e1" "r1"
        Outcome.success).trace = [] := by
  exact ⟨rfl, rfl, rfl, rfl⟩

/-- **C3** (amended): after a successfully completed edit, a `usage_alert`
notification is sent exactly when the user has *no subscription record at
all* (a record with any status, `active` or `cancelled`, suppresses it) and
the updated completion count is at least 8; it fires on every completion
once the count is ≥ 8 (a boundary check, not a one-shot latch). -/
theorem usage_alert_iff_no_subscription_record (db : DB)
    (u eid uuidR : String) :
    traceUsageAlerts (process_edit db u eid uuidR Outcome.success).trace
      = (if db.get_subscription u = none ∧ 8 ≤ editsUsed db u + 1 then
          [Notice.usage_alert u ⟨usageAlertMessage, 10 - (editsUsed db u + 1)⟩]
        else []) :=
  process_success_alert_actions db u eid uuidR

/-- Store of a non-subscribed user who has already completed 10 edits. -/
def cDbTen : DB :=
  ⟨[("img1", wImage)], [("e1", wEditQueued)], [],
    [("u1", [("edits_completed", 10)])], 2⟩

/-- **C4** counterexample: the 11th successful completion of a
non-subscribed user fires a `usage_alert` whose `remaining` is
`10 - 11 = -1`, a negative value — the alert payload is not clamped. -/
theorem usage_alert_remaining_negative :
    traceUsageAlerts (process_edit cDbTen "u1" "e1" "r1"
        Outcome.success).trace
      = [Notice.usage_alert "u1" ⟨usageAlertMessage, -1⟩] ∧
    (-1 : Int) < 0 := by
  exact ⟨rfl, by decide⟩

/-- **C4** (amended): for a user with no subscription record the
subscription-status operation reports `trial_remaining = max(0, 10 - used)`
(clamped, never negative); a `usage_alert` fired at updated count N carries
`remaining = 10 - N` *unclamped*, which is negative once N exceeds 10,
since the alert fires on every completion with N ≥ 8. -/
theorem trial_remaining_clamped_alert_unclamped (db : DB)
    (u eid uuidR : String) (h : db.get_subscription u = none) :
    (get_subscription_status db u).trial_remaining
        = some (max 0 (10 - editsUsed db u)) ∧
    traceUsageAlerts (process_edit db u eid uuidR Outcome.success).trace
      = (if 8 ≤ editsUsed db u + 1 then
          [Notice.usage_alert u ⟨usageAlertMessage, 10 - (editsUsed db u + 1)⟩]
        else []) := by
  constructor
  · simp [get_subscription_status, h, editsUsed]
  · rw [process_success_alert_actions]
    by_cases h8 : (8 : Int) ≤ editsUsed db u + 1
    · rw [if_pos ⟨h, h8⟩, if_pos h8]
    · rw [if_neg (fun hc => h8 hc.2), if_neg h8]

theorem trial_remaining_clamped_alert_unclamped_witness :
    (get_subscription_status cDbTen "u1").trial_remaining = some 0 ∧
    traceUsageAlerts (process_edit cDbTen "u1" "e1" "r1"
        Outcome.success).trace
      = [Notice.usage_alert "u1" ⟨usageAlertMessage, 10 - 11⟩] := by
  have h := trial_remaining_clamped_alert_unclamped cDbTen "u1" "e1" "r1" rfl
  exact ⟨h.1.trans (by decide), h.2.trans (by decide)⟩

/-- **C6**: for a valid (user, owned image, prompt) and a fresh uuid,
`submit` returns an Edit with status `queued` and the fresh id, stores
exactly that record, schedules (but does not run) the Executor task, and
the record is immediately visible to `get_edit` and `list_edits` on the
resulting store — all before any Executor step. -/
theorem submit_creates_queued_edit (db : DB) (u i p uuid : String)
    (img : ImageRec) (himg : db.get_image u i = some img)
    (hFresh : dictGet db.edits uuid = none) :
    create_edit_route db u i p uuid
      = (Except.ok (⟨uuid, u, i, p, "queued", none, db.clock, db.clock⟩,
            ⟨u, uuid, img.path, p⟩,
            ⟨"edit_requested", u,
              [("edit_id", uuid), ("image_id", i), ("prompt", p)]⟩),
          { db with
              edits := dictSet db.edits uuid
                ⟨uuid, u, i, p, "queued", none, db.clock, db.clock⟩
              clock := db.clock + 1 }) ∧
    (create_edit_route db u i p uuid).2.get_edit u uuid
      = some ⟨uuid, u, i, p, "queued", none, db.clock, db.clock⟩ ∧
    (⟨uuid, u, i, p, "queued", none, db.clock, db.clock⟩ : EditRec)
      ∈ (create_edit_route db u i p uuid).2.list_edits_for_image u i := by
  have hroute : create_edit_route db u i p uuid
      = (Except.ok (⟨uuid, u, i, p, "queued", none, db.clock, db.clock⟩,
            ⟨u, uuid, img.path, p⟩,
            ⟨"edit_requested", u,
              [("edit_id", uuid), ("image_id", i), ("prompt", p)]⟩),
          { db with
              edits := dictSet db.edits uuid
                ⟨uuid, u, i, p, "queued", none, db.clock, db.clock⟩
              clock := db.clock + 1 }) := by
    unfold create_edit_route
    rw [himg]
    rfl
  refine ⟨hroute, ?_, ?_⟩
  · rw [hroute]
    unfold DB.get_edit
    rw [show ({ db with
        edits := dictSet db.edits uuid
          ⟨uuid, u, i, p, "queued", none, db.clock, db.clock⟩
        clock := db.clock + 1 } : DB).edits
      = dictSet db.edits uuid
          ⟨uuid, u, i, p, "queued", none, db.clock, db.clock⟩ from rfl]
    rw [dictGet_dictSet_self]
    simp
  · rw [hroute]
    unfold DB.list_edits_for_image
    rw [show ({ db with
        edits := dictSet db.edits uuid
          ⟨uuid, u, i, p, "queued", none, db.clock, db.clock⟩
        clock := db.clock + 1 } : DB).edits
      = dictSet db.edits uuid
          ⟨uuid, u, i, p, "queued", none, db.clock, db.clock⟩ from rfl]
    rw [dictValues_dictSet_fresh _ _ _ hFresh]
    rw [List.filter_append]
    refine List.mem_append.mpr (Or.inr ?_)
    simp

theorem submit_creates_queued_edit_witness :
    (create_edit_route wDb1 "u1" "img1" "crop" "e2").2.get_edit "u1" "e2"
      = some ⟨"e2", "u1", "img1", "crop", "queued", none, 2, 2⟩ :=
  (submit_creates_queued_edit wDb1 "u1" "img1" "crop" "e2" wImage rfl
    rfl).2.1

/-- Store holding one image owned by `u2`. -/
def cDbOther : DB :=
  ⟨[("img1", ⟨"img1", "u2", "house.jpg", "uploads/house.jpg",
    "image/jpeg", 0, "uploaded"⟩)], [], [], [], 1⟩

/-- **C7**: when the image does not exist or belongs to a different user,
both `submit` and the per-image list fail with 404 Not Found, and `submit`
leaves the store completely unchanged — no Edit record is created. -/
theorem not_found_rejection (db : DB) (u i p uuid : String)
    (h : dictGet db.images i = none ∨
      ∃ img, dictGet db.images i = some img ∧ img.user_id ≠ u) :
    create_edit_route db u i p uuid
      = (Except.error (ApiError.notFound "Image not found"), db) ∧
    list_edits_route db u i
      = Except.error (ApiError.notFound "Image not found") := by
  have hg : db.get_image u i = none := by
    unfold DB.get_image
    rcases h with h | ⟨img, himg, hne⟩
    · rw [h]
    · rw [himg]
      simp [hne]
  constructor
  · unfold create_edit_route
    rw [hg]
  · unfold list_edits_route
    rw [hg]

theorem not_found_rejection_witness :
    create_edit_route cDbOther "u1" "img1" "crop" "e9"
      = (Except.error (ApiError.notFound "Image not found"), cDbOther) ∧
    list_edits_route cDbOther "u1" "img1"
      = Except.error (ApiError.notFound "Image not found") :=
  not_found_rejection cDbOther "u1" "img1" "crop" "e9"
    (Or.inr ⟨⟨"img1", "u2", "house.jpg", "uploads/house.jpg",
      "image/jpeg", 0, "uploaded"⟩, rfl, by decide⟩)

theorem pathJoin_results (u : String) (h : u.data.head? ≠ some '/') :
    pathJoin RESULTS_DIR u = RESULTS_DIR ++ "/" ++ u := by
  unfold pathJoin
  rw [if_neg, if_neg]
  · decide
  · simpa using h

theorem unique_head_ne_slash (uuid safe : String)
    (h : uuid.data.head? ≠ some '/') :
    (uuid ++ "_" ++ safe).data.head? ≠ some '/' := by
  rw [String.data_append, String.data_append]
  cases hd : uuid.data with
  | nil => simp
  | cons c cs =>
      rw [hd] at h
      simp
      simpa using h

theorem safe_filename_chars (hint : String) :
    (safe_filename hint).data.all isSafeChar = true := by
  rw [List.all_eq_true]
  intro c hc
  unfold safe_filename at hc
  have hc' := List.mem_of_mem_take hc
  obtain ⟨x, _, rfl⟩ := List.mem_map.mp hc'
  by_cases hx : isSafeChar x = true
  · rw [if_pos hx]
    exact hx
  · rw [if_neg hx]
    decide

/-- **C9**: the result path for any basename hint lies directly under the
configured results directory; its filename component is the drawn uuid, an
underscore, and a sanitised name made only of `[A-Za-z0-9._-]` characters
and at most 100 characters long; and two generated paths differ whenever
the drawn uuids differ (uuid4 strings: fixed length, never starting with a
slash). -/
theorem result_path_shape_and_uniqueness (uuid1 uuid2 hint1 hint2 : String)
    (h1 : uuid1.data.head? ≠ some '/') (h2 : uuid2.data.head? ≠ some '/')
    (hlen : uuid2.length = uuid1.length) (hne : uuid2 ≠ uuid1) :
    (generate_result_path uuid1 hint1).2
      = RESULTS_DIR ++ "/" ++ (uuid1 ++ "_" ++ safe_filename hint1) ∧
    (safe_filename hint1).data.all isSafeChar = true ∧
    (safe_filename hint1).length ≤ 100 ∧
    (generate_result_path uuid1 hint1).2
      ≠ (generate_result_path uuid2 hint2).2 := by
  refine ⟨?_, safe_filename_chars hint1, ?_, ?_⟩
  · exact pathJoin_results _ (unique_head_ne_slash _ _ h1)
  · show (safe_filename hint1).data.length ≤ 100
    unfold safe_filename
    simp
  · show pathJoin RESULTS_DIR (uuid1 ++ "_" ++ safe_filename hint1)
      ≠ pathJoin RESULTS_DIR (uuid2 ++ "_" ++ safe_filename hint2)
    rw [pathJoin_results _ (unique_head_ne_slash _ _ h1),
      pathJoin_results _ (unique_head_ne_slash _ _ h2)]
    intro heq
    apply hne
    have hd := congrArg String.data heq
    simp only [String.data_append, List.append_assoc] at hd
    have hd2 := List.append_cancel_left hd
    have hd3 := List.append_cancel_left hd2
    have hu : uuid1.data = uuid2.data :=
      List.append_inj_left hd3 (by
        show uuid1.data.length = uuid2.data.length
        exact hlen.symm)
    cases uuid1
    cases uuid2
    exact congrArg String.mk hu.symm

theorem result_path_shape_and_uniqueness_witness :
    (generate_result_path "r1" "a b.jpg").2 = "storage/results/r1_a_b.jpg" ∧
    (generate_result_path "r1" "a b.jpg").2
      ≠ (generate_result_path "r2" "x.png").2 := by
  have h := result_path_shape_and_uniqueness "r1" "r2" "a b.jpg" "x.png"
    (by decide) (by decide) (by decide) (by decide)
  exact ⟨h.1.trans (by decide), h.2.2.2⟩

/-- **C10**: `increment_usage` returns the previous value of the metric
plus the amount, and a following `get_usage` reports that same new total;
an unseen user or metric has previous value 0, `get_usage` on an unseen
user returns the empty mapping rather than failing, and the first increment
with the default amount (1) returns 1. -/
theorem increment_then_get_usage (db : DB) (u metric : String)
    (amount : Int) :
    (db.increment_usage u metric amount).1
      = (dictGet (db.get_usage u) metric).getD 0 + amount ∧
    dictGet ((db.increment_usage u metric amount).2.get_usage u) metric
      = some ((dictGet (db.get_usage u) metric).getD 0 + amount) ∧
    (dictGet db.usage u = none →
      db.get_usage u = [] ∧ (db.increment_usage u metric 1).1 = 1) := by
  refine ⟨rfl, ?_, ?_⟩
  · unfold DB.increment_usage DB.get_usage
    simp only [dictGet_dictSet_self, Option.getD_some]
  · intro h
    constructor
    · simp [DB.get_usage, h]
    · show (dictGet ((dictGet db.usage u).getD []) metric).getD 0 + 1 = 1
      rw [h]
      simp [dictGet]

theorem increment_then_get_usage_witness :
    DB.get_usage ⟨[], [], [], [], 0⟩ "u1" = [] ∧
    (DB.increment_usage ⟨[], [], [], [], 0⟩ "u1" "edits_completed" 1).1 = 1 :=
  (increment_then_get_usage ⟨[], [], [], [], 0⟩ "u1" "edits_completed" 1).2.2
    rfl

end RealEstate
